import Mathlib

/-!
# QuantoBasta — verification of the audio/video synchronization core

Shallow embedding of the Rust sources of `rishooty/QuantoBasta`
(`src/audio.rs`, `src/video.rs`, `src/main.rs`) and proofs about the
behaviour claimed by the natural-language specification.

Conventions used throughout:
* Rust machine integers are modelled as `Nat`/`Int`; overflow is noted where
  it could matter.
* A `VecDeque` is a `List` whose head is the front of the deque.
* Fallible or panicking code returns `Option`: `none` models a Rust panic or,
  where noted, a loop that never terminates.
* Cross-thread `mpsc` channels are modelled as FIFO queues (`List`), with
  `send` appending at the back and `try_iter` yielding the whole queue in
  order.
-/

namespace QuantoBasta

/-! ## Audio constants — src/audio.rs lines 19-24 -/

def AUDIO_CHANNELS : Nat := 2

def FINAL_SAMPLE_RATE : Nat := 48000

def BUFFER_DURATION_MS : Nat := 64

def BUFFER_LENGTH : Nat := FINAL_SAMPLE_RATE * BUFFER_DURATION_MS / 1000

def POOL_SIZE : Nat := 20

/-- One 16-bit audio sample (`i16`). -/
abbrev Sample := Int

/-- `VecDeque<i16>`: the head of the list is the front (oldest element). -/
abbrev AudioDeque := List Sample

/-!
## The eviction loop — src/audio.rs lines 98-101

`while buffer.len() + audio_slice.len() > buffer.capacity() { buffer.pop_front(); }`

`pop_front` on an empty `VecDeque` is a no-op, so when `incoming` alone
exceeds the capacity the condition stays true forever once the deque is
empty: the Rust loop never terminates.  `none` models that nontermination.
The capacity is the deque allocation size, `BUFFER_LENGTH` samples
(`VecDeque::with_capacity(BUFFER_LENGTH)`); it is passed here as `cap`.
-/

def evictFront (cap incoming : Nat) : AudioDeque → Option AudioDeque
  | [] => if 0 + incoming > cap then none else some []
  | a :: t =>
    if (a :: t).length + incoming > cap then evictFront cap incoming t
    else some (a :: t)

/-- The body of the callback acting on one deque (src/audio.rs lines 94-105):
evict from the front until the incoming slice fits, then append it. -/
def bufferSubmit (cap : Nat) (buffer : AudioDeque) (slice : List Sample) :
    Option AudioDeque :=
  (evictFront cap slice.length buffer).map (fun b => b ++ slice)

/-- A sequence of submissions into one deque, starting from the empty deque a
freshly pooled buffer holds.  Sequential callback invocations do reuse one
and the same deque: each call pops the LAST pool entry and pushes the filled
deque back at the end, so the next call pops it again.  `none` as soon as
one submission hangs. -/
def submitAll (cap : Nat) (batches : List (List Sample)) : Option AudioDeque :=
  List.foldlM (fun buf batch => bufferSubmit cap buf batch) [] batches

/-!
## The buffer pool and the full callback — src/audio.rs lines 61-67 and 84-111

`BUFFER_POOL` is a `Vec` of deques, initially `POOL_SIZE` empty deques.
`pool.pop()` removes the LAST element of the `Vec`; when the pool is empty a
fresh empty deque is allocated.  The callback holds the pool lock for its
whole body, so pop, fill and push are one atomic step.  The callback never
sends anything on `AUDIO_DATA_CHANNEL`; the `channel` component below models
that queue so this fact is visible in the state.
-/

structure AudioState where
  pool : List AudioDeque
  channel : List AudioDeque
deriving DecidableEq

def initPool : List AudioDeque := List.replicate POOL_SIZE []

def initAudioState : AudioState := { pool := initPool, channel := [] }

/-- src/audio.rs lines 84-111.  The engine hands a pointer to
`frames * AUDIO_CHANNELS` interleaved samples; `audioData` models the pointed
memory, of which the first `frames * AUDIO_CHANNELS` samples are read.
Returns the updated state and the returned `size_t` (the `frames` argument),
or `none` when the eviction loop never terminates. -/
def libretro_set_audio_sample_batch_callback (st : AudioState)
    (audioData : List Sample) (frames : Nat) : Option (AudioState × Nat) :=
  let popped : AudioDeque × List AudioDeque :=
    match st.pool.getLast? with
    | some b => (b, st.pool.dropLast)
    | none => ([], st.pool)
  let audio_slice := audioData.take (frames * AUDIO_CHANNELS)
  (bufferSubmit BUFFER_LENGTH popped.1 audio_slice).map
    (fun buf => ({ pool := popped.2 ++ [buf], channel := st.channel }, frames))

/-- A sequence of callback invocations; each element is the pointed sample
memory together with the `frames` argument. -/
def runSubmits : AudioState → List (List Sample × Nat) → Option AudioState
  | st, [] => some st
  | st, c :: rest =>
    match libretro_set_audio_sample_batch_callback st c.1 c.2 with
    | none => none
    | some (st2, _) => runSubmits st2 rest

/-- src/main.rs lines 110-124: the audio thread locks `AUDIO_DATA_CHANNEL`
and `try_iter`s it, handing every available buffer to `play_audio` in arrival
order.  Result: the buffers played, in order, and the queue afterwards. -/
def audioThreadDrain (channel : List AudioDeque) :
    List AudioDeque × List AudioDeque :=
  (channel, [])

/-! ## Basic facts about the eviction loop -/

/-- When the incoming slice fits in the capacity the loop terminates and
drops exactly enough oldest samples for the slice to fit. -/
theorem evictFront_eq (cap incoming : Nat) (buf : AudioDeque)
    (h : incoming ≤ cap) :
    evictFront cap incoming buf = some (buf.drop (buf.length + incoming - cap)) := by
  induction buf with
  | nil =>
    have hc : ¬ (0 + incoming > cap) := by omega
    rw [show evictFront cap incoming [] =
        if 0 + incoming > cap then none else some [] from rfl, if_neg hc]
    simp
  | cons a t ih =>
    have hstep : evictFront cap incoming (a :: t) =
        if (a :: t).length + incoming > cap then evictFront cap incoming t
        else some (a :: t) := rfl
    by_cases hc : (a :: t).length + incoming > cap
    · have hd : (a :: t).length + incoming - cap = (t.length + incoming - cap) + 1 := by
        simp only [List.length_cons] at hc ⊢
        omega
      rw [hstep, if_pos hc, ih, hd, List.drop_succ_cons]
    · have hd : (a :: t).length + incoming - cap = 0 := by omega
      rw [hstep, if_neg hc, hd]
      simp

/-- When the incoming slice alone exceeds the capacity, the loop never
terminates (the deque empties and the condition stays true). -/
theorem evictFront_none (cap incoming : Nat) (buf : AudioDeque)
    (h : cap < incoming) :
    evictFront cap incoming buf = none := by
  induction buf with
  | nil =>
    have hc : 0 + incoming > cap := by omega
    rw [show evictFront cap incoming [] =
        if 0 + incoming > cap then none else some [] from rfl, if_pos hc]
  | cons a t ih =>
    have hstep : evictFront cap incoming (a :: t) =
        if (a :: t).length + incoming > cap then evictFront cap incoming t
        else some (a :: t) := rfl
    have hc : (a :: t).length + incoming > cap := by
      simp only [List.length_cons]
      omega
    rw [hstep, if_pos hc, ih]

theorem bufferSubmit_eq (cap : Nat) (buf : AudioDeque) (slice : List Sample)
    (h : slice.length ≤ cap) :
    bufferSubmit cap buf slice =
      some (buf.drop (buf.length + slice.length - cap) ++ slice) := by
  rw [bufferSubmit, evictFront_eq cap slice.length buf h, Option.map_some']

/-- Core invariant of repeated submission: starting from any deque that fits,
the deque afterwards is exactly a suffix of the concatenated stream, namely
what remains after dropping everything that does not fit in `cap`. -/
theorem submitLoop_eq (cap : Nat) :
    ∀ (batches : List (List Sample)) (buf : AudioDeque),
      (∀ b ∈ batches, b.length ≤ cap) → buf.length ≤ cap →
      List.foldlM (fun acc batch => bufferSubmit cap acc batch) buf batches =
        some ((buf ++ batches.flatten).drop
          (buf.length + (batches.map List.length).sum - cap)) := by
  intro batches
  induction batches with
  | nil =>
    intro buf _ hbuf
    have hd : buf.length - cap = 0 := by omega
    simp [hd]
  | cons b bs ih =>
    intro buf hall hbuf
    have hb : b.length ≤ cap := hall b (by simp)
    have hbs : ∀ x ∈ bs, x.length ≤ cap := by
      intro x hx
      exact hall x (by simp [hx])
    rw [List.foldlM_cons, bufferSubmit_eq cap buf b hb]
    have hlen1 : (buf.drop (buf.length + b.length - cap) ++ b).length ≤ cap := by
      simp only [List.length_append, List.length_drop]
      omega
    rw [Option.bind_eq_bind, Option.some_bind, ih _ hbs hlen1]
    have hd : buf.length + b.length - cap ≤ buf.length := by omega
    have hsplit :
        (buf.drop (buf.length + b.length - cap) ++ b ++ bs.flatten) =
          (buf ++ (b :: bs).flatten).drop (buf.length + b.length - cap) := by
      rw [List.flatten_cons, List.drop_append_eq_append_drop]
      have h0 : buf.length + b.length - cap - buf.length = 0 := by omega
      rw [h0]
      simp [List.append_assoc]
    rw [hsplit, List.drop_drop]
    have hlen2 : (buf.drop (buf.length + b.length - cap) ++ b).length
        = buf.length - (buf.length + b.length - cap) + b.length := by
      simp
    have hsum : ((b :: bs).map List.length).sum
        = b.length + (bs.map List.length).sum := by
      simp
    congr 2
    omega

theorem BUFFER_LENGTH_eq : BUFFER_LENGTH = 3072 := rfl

/-! ## Claim C1 -/

/-- Claim C1, amended: for every sequence of submissions into one buffer in
which each call delivers at most `BUFFER_LENGTH` samples and whose total
sample count exceeds `BUFFER_LENGTH`, the buffer after the final submit
contains exactly the most recent `BUFFER_LENGTH` samples of the concatenated
stream, in submission order (drop-oldest FIFO; eviction only at the front).
The amendment excludes single calls larger than the capacity: those never
complete (see the counterexample). -/
theorem c1_drop_oldest_fifo :
    ∀ batches : List (List Sample),
      (∀ b ∈ batches, b.length ≤ BUFFER_LENGTH) →
      BUFFER_LENGTH < (batches.map List.length).sum →
      submitAll BUFFER_LENGTH batches =
        some (batches.flatten.drop
          ((batches.map List.length).sum - BUFFER_LENGTH)) ∧
      (batches.flatten.drop
          ((batches.map List.length).sum - BUFFER_LENGTH)).length
        = BUFFER_LENGTH := by
  intro batches hall htot
  constructor
  · rw [submitAll, submitLoop_eq BUFFER_LENGTH batches [] hall (by simp)]
    simp
  · rw [List.length_drop, List.length_flatten]
    omega

/-- Claim C1, counterexample to the original statement: a single submit call
delivering `BUFFER_LENGTH + 2` samples (1537 frames) exceeds the capacity by
itself, and the eviction loop then never terminates — there is no buffer
state after the final submit at all. -/
theorem c1_counterexample :
    submitAll BUFFER_LENGTH [List.replicate (BUFFER_LENGTH + 2) (0 : Sample)]
      = none := by
  have h : BUFFER_LENGTH <
      (List.replicate (BUFFER_LENGTH + 2) (0 : Sample)).length := by
    simp
  rw [submitAll, List.foldlM_cons, bufferSubmit,
    evictFront_none BUFFER_LENGTH _ [] h]
  rfl

/-- Claim C1, witness: two batches of 2000 samples each satisfy the
hypotheses (each fits in the 3072-sample capacity, 4000 total exceeds it). -/
theorem c1_witness :
    (∀ b ∈ [List.replicate 2000 (0 : Sample), List.replicate 2000 (0 : Sample)],
        b.length ≤ BUFFER_LENGTH) ∧
    submitAll BUFFER_LENGTH
        [List.replicate 2000 (0 : Sample), List.replicate 2000 (0 : Sample)] =
      some (([List.replicate 2000 (0 : Sample),
            List.replicate 2000 (0 : Sample)].flatten).drop
        (([List.replicate 2000 (0 : Sample),
            List.replicate 2000 (0 : Sample)].map List.length).sum
          - BUFFER_LENGTH)) := by
  have hone : (List.replicate 2000 (0 : Sample)).length ≤ BUFFER_LENGTH := by
    rw [List.length_replicate, BUFFER_LENGTH_eq]
    omega
  have h1 : ∀ b ∈ [List.replicate 2000 (0 : Sample),
      List.replicate 2000 (0 : Sample)], b.length ≤ BUFFER_LENGTH := by
    intro b hb
    rcases List.mem_cons.mp hb with h | h
    · subst h; exact hone
    · rcases List.mem_cons.mp h with h2 | h2
      · subst h2; exact hone
      · simp at h2
  have h2 : BUFFER_LENGTH <
      (([List.replicate 2000 (0 : Sample),
          List.replicate 2000 (0 : Sample)]).map List.length).sum := by
    simp only [List.map_cons, List.map_nil, List.length_replicate,
      List.sum_cons, List.sum_nil, BUFFER_LENGTH_eq]
    omega
  exact ⟨h1, (c1_drop_oldest_fifo _ h1 h2).1⟩

/-! ## Claim C8 -/

/-- Claim C8, amended: every call whose delivered sample count
(`frames * AUDIO_CHANNELS`) fits within the buffer capacity returns exactly
`frames` — all frames reported accepted, excess data silently dropped.  The
amendment excludes calls delivering more samples than the capacity: those
never return (see the counterexample). -/
theorem c8_reports_all_frames :
    ∀ (st : AudioState) (audioData : List Sample) (frames : Nat),
      frames * AUDIO_CHANNELS ≤ BUFFER_LENGTH →
      (libretro_set_audio_sample_batch_callback st audioData frames).map
          Prod.snd = some frames := by
  intro st audioData frames h
  have hsl : (audioData.take (frames * AUDIO_CHANNELS)).length
      ≤ BUFFER_LENGTH := by
    have h2 : (audioData.take (frames * AUDIO_CHANNELS)).length
        ≤ frames * AUDIO_CHANNELS := by
      simp [List.length_take]
    omega
  cases hg : st.pool.getLast? with
  | none =>
    simp [libretro_set_audio_sample_batch_callback, hg,
      bufferSubmit_eq _ _ _ hsl]
  | some b =>
    simp [libretro_set_audio_sample_batch_callback, hg,
      bufferSubmit_eq _ _ _ hsl]

/-- Claim C8, witness: a 2-frame batch is accepted and reported in full. -/
theorem c8_witness :
    2 * AUDIO_CHANNELS ≤ BUFFER_LENGTH ∧
    (libretro_set_audio_sample_batch_callback initAudioState
        [0, 0, 0, 0] 2).map Prod.snd = some 2 :=
  ⟨by decide,
   c8_reports_all_frames initAudioState [0, 0, 0, 0] 2 (by decide)⟩

/-- Claim C8, counterexample to the original statement: a call with
`frames = BUFFER_LENGTH / 2 + 1 = 1537` (3074 samples, more than the
3072-sample capacity) never returns: the eviction loop never terminates, so
the callback does not report `frame_count` — it does not report anything. -/
theorem c8_counterexample :
    libretro_set_audio_sample_batch_callback initAudioState
      (List.replicate (BUFFER_LENGTH + 2) (0 : Sample)) (BUFFER_LENGTH / 2 + 1)
      = none := by
  have hg : initAudioState.pool.getLast? = some [] := by decide
  have hlt : BUFFER_LENGTH <
      ((List.replicate (BUFFER_LENGTH + 2) (0 : Sample)).take
        ((BUFFER_LENGTH / 2 + 1) * AUDIO_CHANNELS)).length := by
    rw [List.length_take, List.length_replicate, BUFFER_LENGTH_eq]
    norm_num [AUDIO_CHANNELS]
  simp only [libretro_set_audio_sample_batch_callback, hg, bufferSubmit,
    evictFront_none BUFFER_LENGTH _ [] hlt]
  rfl

/-! ## Claim C5 -/

/-- Claim C5: the pool is bounded.  Every completed callback that found a
nonempty pool leaves the pool exactly the size it found it (it pops one
buffer and pushes one back under the same lock), and any completed sequence
of callbacks from the initial state leaves the pool at exactly `POOL_SIZE`
buffers — so total circulation never exceeds `POOL_SIZE` and the pool
neither leaks nor grows. -/
theorem c5_pool_size_invariant :
    (∀ (st : AudioState) (audioData : List Sample) (frames : Nat)
        (out : AudioState × Nat),
        libretro_set_audio_sample_batch_callback st audioData frames
          = some out →
        st.pool ≠ [] → out.1.pool.length = st.pool.length) ∧
    (∀ (calls : List (List Sample × Nat)) (st2 : AudioState),
        runSubmits initAudioState calls = some st2 →
        st2.pool.length = POOL_SIZE) := by
  have part1 : ∀ (st : AudioState) (audioData : List Sample) (frames : Nat)
      (out : AudioState × Nat),
      libretro_set_audio_sample_batch_callback st audioData frames
        = some out →
      st.pool ≠ [] → out.1.pool.length = st.pool.length := by
    intro st audioData frames out hcall hne
    cases hg : st.pool.getLast? with
    | none => exact absurd (List.getLast?_eq_none_iff.mp hg) hne
    | some b =>
      simp only [libretro_set_audio_sample_batch_callback, hg] at hcall
      rcases Option.map_eq_some'.mp hcall with ⟨buf, _, hout⟩
      have hpos : 0 < st.pool.length := List.length_pos.mpr hne
      rw [← hout]
      simp only [List.length_append, List.length_dropLast,
        List.length_singleton]
      omega
  refine ⟨part1, ?_⟩
  have main : ∀ (calls : List (List Sample × Nat)) (st st2 : AudioState),
      st.pool.length = POOL_SIZE → runSubmits st calls = some st2 →
      st2.pool.length = POOL_SIZE := by
    intro calls
    induction calls with
    | nil =>
      intro st st2 hlen hrun
      simp only [runSubmits, Option.some_inj] at hrun
      rw [← hrun]
      exact hlen
    | cons c rest ih =>
      intro st st2 hlen hrun
      cases hcall : libretro_set_audio_sample_batch_callback st c.1 c.2 with
      | none =>
        rw [runSubmits, hcall] at hrun
        cases hrun
      | some pr =>
        obtain ⟨stNext, r⟩ := pr
        rw [runSubmits, hcall] at hrun
        have hne : st.pool ≠ [] := by
          intro hnil
          rw [hnil] at hlen
          simp [POOL_SIZE] at hlen
        have hpres := part1 st c.1 c.2 (stNext, r) hcall hne
        exact ih stNext st2 (by rw [hpres, hlen]) hrun
  intro calls st2 hrun
  exact main calls initAudioState st2 (by simp [initAudioState, initPool]) hrun

/-- Claim C5, witness: one concrete callback preserves a one-buffer pool, and
one concrete run from the initial state ends with `POOL_SIZE` buffers. -/
theorem c5_witness :
    (((⟨[[1, 5, 5]], []⟩ : AudioState), 1).1.pool.length
        = (⟨[[1]], []⟩ : AudioState).pool.length) ∧
    (⟨List.replicate 19 [] ++ [[5, 5]], []⟩ : AudioState).pool.length
        = POOL_SIZE :=
  ⟨c5_pool_size_invariant.1 ⟨[[1]], []⟩ [5, 5] 1 (⟨[[1, 5, 5]], []⟩, 1)
      (by decide) (by decide),
   c5_pool_size_invariant.2 [([5, 5], 1)]
      ⟨List.replicate 19 [] ++ [[5, 5]], []⟩ (by decide)⟩

/-! ## Claim C4 -/

/-- Claim C4, evaluation at the failing input: a callback invocation from the
initial state fills a pool buffer and returns it to the pool, but
`AUDIO_DATA_CHANNEL` stays empty — the batch is never queued for the
audio-output consumer, and the consumer, draining in arrival order, receives
nothing to hand to `play_audio`.  The code never sends on the channel at
all, contradicting the claimed producer-consumer hand-off. -/
theorem c4_never_queued :
    libretro_set_audio_sample_batch_callback initAudioState [0, 0] 1
        = some ({ pool := List.replicate 19 [] ++ [[0, 0]], channel := [] }, 1)
      ∧ audioThreadDrain [] = ([], []) :=
  ⟨by decide, rfl⟩

/-!
## Video — src/video.rs

Pixel formats (libretro_sys::PixelFormat) and the conversion tables built at
the top of `render_frame` (src/video.rs lines 120-146).  The `u32` table
entries are modelled as `Nat`; every intermediate value stays below `2^32`,
so no truncation is needed.
-/

inductive PixelFormat where
  | ARGB1555
  | RGB565
  | ARGB8888
deriving DecidableEq

/-- src/video.rs lines 121-130: the value stored at index `i` of
`rgb565_to_rgb8888_table` (the loop body, verbatim bit arithmetic). -/
def rgb565ToArgb8888 (i : Nat) : Nat :=
  0xFF000000 |||
    (((((i >>> 11) &&& 0x1F) * 527 + 23) >>> 6) <<< 16) |||
    (((((i >>> 5) &&& 0x3F) * 259 + 33) >>> 6) <<< 8) |||
    (((i &&& 0x1F) * 527 + 23) >>> 6)

/-- src/video.rs lines 120-131: the 65536-entry table, indexed by the raw
16-bit pixel value. -/
def rgb565_to_rgb8888_table : List Nat :=
  (List.range 65536).map rgb565ToArgb8888

/-- src/video.rs lines 134-145: the value stored at index `i` of
`argb1555_to_argb8888_table`.  The loop runs `i` over `0..32768`, so the
alpha field `(i >> 15) & 1` is always zero there. -/
def argb1555ToArgb8888 (i : Nat) : Nat :=
  ((((i >>> 15) &&& 0x01) * 255) <<< 24) |||
    (((((i >>> 10) &&& 0x1F) * 527 + 23) >>> 6) <<< 16) |||
    (((((i >>> 5) &&& 0x1F) * 527 + 23) >>> 6) <<< 8) |||
    (((i &&& 0x1F) * 527 + 23) >>> 6)

/-- src/video.rs lines 133-146: the 32768-entry table. -/
def argb1555_to_argb8888_table : List Nat :=
  (List.range 32768).map argb1555ToArgb8888

/-!
Reference conversion, written from the specification: extract the 5/6/5
(resp. 1/5/5/5) fields, expand each channel to 8 bits by exact
round-to-nearest scaling (255/31 for 5-bit fields, 255/63 for 6-bit fields,
255/1 for the alpha bit) and reassemble, with fully opaque alpha for RGB565.
-/

/-- Round-to-nearest expansion of a 5-bit channel to 8 bits. -/
def expand5to8 (c : Nat) : Nat := (2 * (c * 255) + 31) / (2 * 31)

/-- Round-to-nearest expansion of a 6-bit channel to 8 bits. -/
def expand6to8 (c : Nat) : Nat := (2 * (c * 255) + 63) / (2 * 63)

/-- Reference RGB565 to ARGB8888 conversion: 5-6-5 expanded to 8-8-8 with
fully opaque alpha. -/
def rgb565Reference (i : Nat) : Nat :=
  0xFF000000 |||
    (expand5to8 ((i >>> 11) &&& 0x1F) <<< 16) |||
    (expand6to8 ((i >>> 5) &&& 0x3F) <<< 8) |||
    expand5to8 (i &&& 0x1F)

/-- Reference ARGB1555 to ARGB8888 conversion: 1-5-5-5 expanded to
8-8-8-8 (the alpha bit scales to 0 or 255). -/
def argb1555Reference (i : Nat) : Nat :=
  ((((i >>> 15) &&& 0x01) * 255) <<< 24) |||
    (expand5to8 ((i >>> 10) &&& 0x1F) <<< 16) |||
    (expand5to8 ((i >>> 5) &&& 0x1F) <<< 8) |||
    expand5to8 (i &&& 0x1F)

theorem code_expand5_eq : ∀ c, c ≤ 31 → (c * 527 + 23) >>> 6 = expand5to8 c := by
  decide

theorem code_expand6_eq : ∀ c, c ≤ 63 → (c * 259 + 33) >>> 6 = expand6to8 c := by
  decide

theorem rgb565_fun_eq_reference (i : Nat) :
    rgb565ToArgb8888 i = rgb565Reference i := by
  rw [rgb565ToArgb8888, rgb565Reference,
    code_expand5_eq ((i >>> 11) &&& 0x1F) Nat.and_le_right,
    code_expand6_eq ((i >>> 5) &&& 0x3F) Nat.and_le_right,
    code_expand5_eq (i &&& 0x1F) Nat.and_le_right]

theorem argb1555_fun_eq_reference (i : Nat) :
    argb1555ToArgb8888 i = argb1555Reference i := by
  rw [argb1555ToArgb8888, argb1555Reference,
    code_expand5_eq ((i >>> 10) &&& 0x1F) Nat.and_le_right,
    code_expand5_eq ((i >>> 5) &&& 0x1F) Nat.and_le_right,
    code_expand5_eq (i &&& 0x1F) Nat.and_le_right]

/-! ## Claim C3 -/

/-- Claim C3: for every 16-bit input the RGB565 lookup-table entry equals
the direct bit-arithmetic reference conversion (5-6-5 expanded to 8-8-8 with
opaque alpha); for every 15-bit input the ARGB1555 table entry equals the
1-5-5-5 to 8-8-8-8 reference; and conversion is deterministic (equal inputs
give equal outputs), exhaustively over all 65536 resp. 32768 inputs. -/
theorem c3_tables_match_reference :
    (∀ i, i < 65536 →
        rgb565_to_rgb8888_table[i]? = some (rgb565Reference i)) ∧
    (∀ i, i < 32768 →
        argb1555_to_argb8888_table[i]? = some (argb1555Reference i)) ∧
    (∀ i j : Nat, i = j →
        rgb565ToArgb8888 i = rgb565ToArgb8888 j ∧
        argb1555ToArgb8888 i = argb1555ToArgb8888 j) := by
  refine ⟨?_, ?_, ?_⟩
  · intro i hi
    rw [rgb565_to_rgb8888_table, List.getElem?_map, List.getElem?_range hi,
      Option.map_some', rgb565_fun_eq_reference]
  · intro i hi
    rw [argb1555_to_argb8888_table, List.getElem?_map, List.getElem?_range hi,
      Option.map_some', argb1555_fun_eq_reference]
  · intro i j hij
    rw [hij]
    exact ⟨rfl, rfl⟩

/-- Claim C3, witness: concrete instances of the three parts. -/
theorem c3_witness :
    rgb565_to_rgb8888_table[0xF800]? = some (rgb565Reference 0xF800) ∧
    argb1555_to_argb8888_table[0x7C00]? = some (argb1555Reference 0x7C00) ∧
    (rgb565ToArgb8888 7 = rgb565ToArgb8888 7 ∧
      argb1555ToArgb8888 7 = argb1555ToArgb8888 7) :=
  ⟨c3_tables_match_reference.1 0xF800 (by decide),
   c3_tables_match_reference.2.1 0x7C00 (by decide),
   c3_tables_match_reference.2.2 7 7 rfl⟩

/-!
## The video frame relay — src/video.rs lines 68-95 and 149-211

`VIDEO_DATA_CHANNEL` is an mpsc channel: the callback `send`s at the back,
`render_frame` drains it with `try_iter`, which yields every queued element
in FIFO order.  The channel is modelled as a `List VideoData` (front =
oldest).  Frame-buffer bytes are `Nat` values below 256.
-/

structure VideoData where
  frame_buffer : List Nat
  pitch : Nat
deriving DecidableEq

/-- src/video.rs lines 68-95.  `frameBufferData = none` models a null
`frame_buffer_data` pointer; otherwise the list models the pointed memory,
of which the first `pitch * height` bytes are copied into the `VideoData`
that is sent on the channel.  `width` is received but not used. -/
def libretro_set_video_refresh_callback (channel : List VideoData)
    (frameBufferData : Option (List Nat)) (width height pitch : Nat) :
    List VideoData :=
  match frameBufferData with
  | none => channel
  | some mem => channel ++ [⟨mem.take (pitch * height), pitch⟩]

/-- Little-endian bytes of a `u32` (`to_ne_bytes` on the usual target). -/
def u32Bytes (v : Nat) : List Nat :=
  [v % 256, v / 256 % 256, v / 65536 % 256, v / 16777216 % 256]

/-- `frame[di..di+4].copy_from_slice(bytes)`: panics (`none`) when the range
extends past the end of the destination. -/
def setSlice4 (frame : List Nat) (di : Nat) (bytes : List Nat) :
    Option (List Nat) :=
  if di + 4 ≤ frame.length then
    some (frame.take di ++ bytes ++ frame.drop (di + 4))
  else none

/-- One iteration of the inner pixel loop body after the bounds check
(src/video.rs lines 172-202): read the source pixel, convert it, write it.
Any out-of-bounds read — `frame_buffer[source_index + 1]` past the end, an
ARGB1555 value with the high bit set indexing the 32768-entry table, or an
ARGB8888 source slice extending past the end — is a Rust panic, `none`. -/
def convertPixel (fmt : PixelFormat) (fb : List Nat) (si : Nat)
    (frame : List Nat) (di : Nat) : Option (List Nat) :=
  match fmt with
  | .RGB565 => do
    let b0 ← fb[si]?
    let b1 ← fb[si + 1]?
    let v := b0 ||| (b1 <<< 8)
    setSlice4 frame di (u32Bytes (rgb565ToArgb8888 v))
  | .ARGB1555 => do
    let b0 ← fb[si]?
    let b1 ← fb[si + 1]?
    let v := b0 ||| (b1 <<< 8)
    if v < 32768 then
      setSlice4 frame di (u32Bytes (argb1555ToArgb8888 v))
    else none
  | .ARGB8888 =>
    if si + 4 ≤ fb.length then
      setSlice4 frame di (fb.drop si |>.take 4)
    else none

/-- The inner `for x in 0..video_width` loop (src/video.rs lines 163-203)
with its bounds check: when `source_index` or `dest_index` is out of range
the loop `break`s, returning the frame written so far.  `fuel` counts the
remaining iterations (`width - x`), so the recursion is structural. -/
def renderRow (fmt : PixelFormat) (bpp pitch width : Nat) (fb : List Nat)
    (y : Nat) : Nat → Nat → List Nat → Option (List Nat)
  | 0, _, frame => some frame
  | fuel + 1, x, frame =>
    let si := y * pitch + x * bpp
    let di := (y * width + x) * 4
    if si ≥ fb.length ∨ di ≥ frame.length then some frame
    else
      match convertPixel fmt fb si frame di with
      | none => none
      | some frame2 => renderRow fmt bpp pitch width fb y fuel (x + 1) frame2

/-- The `for y in 0..video_height` loop over one received `VideoData`
(src/video.rs lines 162-204). -/
def renderVideoData (fmt : PixelFormat) (bpp height width : Nat)
    (vd : VideoData) (frame : List Nat) : Option (List Nat) :=
  List.foldlM
    (fun fr yy => renderRow fmt bpp vd.pitch width vd.frame_buffer yy width 0 fr)
    frame (List.range height)

/-- The `try_iter` drain of src/video.rs lines 152-210: process every queued
`VideoData` in arrival order, presenting (`pixels.render()`) after each one.
Returns the final frame and the list of frame states presented, in order;
`none` models a panic while converting. -/
def renderQueue (fmt : PixelFormat) (bpp height width : Nat) :
    List VideoData → List Nat → List (List Nat) →
    Option (List Nat × List (List Nat))
  | [], frame, presented => some (frame, presented)
  | vd :: rest, frame, presented =>
    match renderVideoData fmt bpp height width vd frame with
    | none => none
    | some frame2 =>
      renderQueue fmt bpp height width rest frame2 (presented ++ [frame2])

/-- src/video.rs lines 114-212, specialised to the drain-and-draw behaviour:
`render_frame` builds the tables, then drains the channel and converts and
presents each queued frame. -/
def render_frame (fmt : PixelFormat) (bpp height width : Nat)
    (queue : List VideoData) (frame : List Nat) :
    Option (List Nat × List (List Nat)) :=
  renderQueue fmt bpp height width queue frame []

/-! ## Claim C9 -/

/-- Claim C9: publishing with a null frame-buffer pointer is a no-op apart
from the diagnostic print — nothing is sent on the channel, nothing panics,
and processing continues with the channel unchanged. -/
theorem c9_null_publish_noop :
    ∀ (channel : List VideoData) (width height pitch : Nat),
      libretro_set_video_refresh_callback channel none width height pitch
        = channel := by
  intro channel width height pitch
  rfl

/-! ## Claim C2 -/

/-- Claim C2, counterexample to the original statement: two publishes since
the last drain queue BOTH frames (the channel is an mpsc queue, not a
latest-wins slot), and the renderer then presents both in order — the stale
first frame is observed and drawn before the second.  Here two distinct
1-by-1 ARGB8888 frames are published; the presented list has the first
frame's bytes before the second's, instead of only the latest. -/
theorem c2_counterexample :
    render_frame .ARGB8888 4 1 1
        (libretro_set_video_refresh_callback
          (libretro_set_video_refresh_callback [] (some [1, 2, 3, 4]) 1 1 4)
          (some [5, 6, 7, 8]) 1 1 4)
        [0, 0, 0, 0]
      = some ([5, 6, 7, 8], [[1, 2, 3, 4], [5, 6, 7, 8]]) := by
  decide

theorem renderQueue_length : ∀ (fmt : PixelFormat) (bpp height width : Nat)
    (queue : List VideoData) (frame : List Nat)
    (presented : List (List Nat)) (out : List Nat × List (List Nat)),
    renderQueue fmt bpp height width queue frame presented = some out →
    out.2.length = presented.length + queue.length := by
  intro fmt bpp height width queue
  induction queue with
  | nil =>
    intro frame presented out h
    simp only [renderQueue, Option.some_inj] at h
    rw [← h]
    simp
  | cons vd rest ih =>
    intro frame presented out h
    rw [renderQueue] at h
    cases hv : renderVideoData fmt bpp height width vd frame with
    | none => rw [hv] at h; cases h
    | some frame2 =>
      rw [hv] at h
      have := ih frame2 (presented ++ [frame2]) out h
      simp only [List.length_append, List.length_singleton, List.length_nil,
        List.length_cons] at this ⊢
      omega

theorem renderQueue_getLast : ∀ (fmt : PixelFormat) (bpp height width : Nat)
    (queue : List VideoData) (frame : List Nat)
    (presented : List (List Nat)) (out : List Nat × List (List Nat)),
    queue ≠ [] →
    renderQueue fmt bpp height width queue frame presented = some out →
    out.2.getLast? = some out.1 := by
  intro fmt bpp height width queue
  induction queue with
  | nil =>
    intro frame presented out hne _
    exact absurd rfl hne
  | cons vd rest ih =>
    intro frame presented out _ h
    rw [renderQueue] at h
    cases hv : renderVideoData fmt bpp height width vd frame with
    | none => rw [hv] at h; cases h
    | some frame2 =>
      rw [hv] at h
      cases rest with
      | nil =>
        simp only [renderQueue, Option.some_inj] at h
        rw [← h]
        simp
      | cons vd2 rest2 =>
        exact ih frame2 (presented ++ [frame2]) out (by simp) h

/-- Claim C2, amended: after zero publishes since the last drain the renderer
draws nothing and the frame is unchanged; after N publishes the renderer
observes and draws ALL N frames in publication order (one present per
publish), the last of which is the Nth and is what remains on screen — a
later publish does not supersede an unread earlier frame. -/
theorem c2_drain_draws_every_frame :
    (∀ (fmt : PixelFormat) (bpp height width : Nat) (frame : List Nat),
        render_frame fmt bpp height width [] frame = some (frame, [])) ∧
    (∀ (fmt : PixelFormat) (bpp height width : Nat) (queue : List VideoData)
        (frame : List Nat) (out : List Nat × List (List Nat)),
        render_frame fmt bpp height width queue frame = some out →
        out.2.length = queue.length ∧
        (queue ≠ [] → out.2.getLast? = some out.1)) := by
  constructor
  · intro fmt bpp height width frame
    rfl
  · intro fmt bpp height width queue frame out h
    constructor
    · have := renderQueue_length fmt bpp height width queue frame [] out h
      simpa using this
    · intro hne
      exact renderQueue_getLast fmt bpp height width queue frame [] out hne h

/-- Claim C2, witness: a one-publish drain presents exactly one frame, which
is also the frame left on screen. -/
theorem c2_witness :
    (render_frame .ARGB8888 4 1 1 [] [0, 0, 0, 0] = some ([0, 0, 0, 0], [])) ∧
    ((([9, 9, 9, 9], [[9, 9, 9, 9]]) :
        List Nat × List (List Nat)).2.length
      = [(⟨[9, 9, 9, 9], 4⟩ : VideoData)].length) ∧
    (([9, 9, 9, 9], [[9, 9, 9, 9]]) :
        List Nat × List (List Nat)).2.getLast? = some [9, 9, 9, 9] := by
  have h := c2_drain_draws_every_frame.2 .ARGB8888 4 1 1
    [⟨[9, 9, 9, 9], 4⟩] [0, 0, 0, 0] ([9, 9, 9, 9], [[9, 9, 9, 9]])
    (by decide)
  exact ⟨c2_drain_draws_every_frame.1 .ARGB8888 4 1 1 [0, 0, 0, 0],
    h.1, h.2 (by simp)⟩

/-! ## Claim C7 -/

/-- Claim C7, evaluation at the failing input: with pixel format RGB565,
`bytes_per_pixel = 2`, a 1-by-1 frame, `pitch = 1` and a one-byte source
buffer, the guard passes (`source_index = 0 < 1`) but the conversion then
reads `frame_buffer[source_index + 1]`, which is out of bounds: the code
panics instead of stopping the row early.  The claim (and the code comment
above the guard) says this never panics; the guard is insufficient. -/
theorem c7_out_of_bounds_panic :
    render_frame .RGB565 2 1 1 [⟨[0], 1⟩] [0, 0, 0, 0] = none := by
  decide

/-!
## Pixel-format negotiation — src/video.rs lines 19-23 and 98-112,
src/main.rs lines 37, 78-79 and 162-175

The engine declares its pixel format through `PIXEL_FORMAT_CHANNEL`; the
declared formats received so far are modelled as a list drained in order by
`try_iter`.
-/

/-- The `bytes_per_pixel` the code derives from a declared format (the
`match` in src/video.rs lines 104-107 and src/main.rs lines 167-170). -/
def bppOfFormat : PixelFormat → Nat
  | .ARGB1555 => 2
  | .RGB565 => 2
  | .ARGB8888 => 4

/-- src/video.rs lines 19-23: `EmulatorPixelFormat::default()`. -/
def emulatorPixelFormatDefault : PixelFormat := .ARGB8888

/-- src/main.rs line 37: the initial value of the `BYTES_PER_PIXEL` static. -/
def BYTES_PER_PIXEL_initial : Nat := 4

/-- src/video.rs lines 98-112: `set_up_pixel_format` starts from `bpp = 2`
and overwrites it with the value matching each received format; with no
declaration it returns 2. -/
def set_up_pixel_format (declared : List PixelFormat) : Nat :=
  declared.foldl (fun _ pf => bppOfFormat pf) 2

/-- The pixel-format part of `EmulatorState`: src/main.rs lines 78-79
initialise it to `ARGB8888` with `bytes_per_pixel = 0`. -/
structure PixelState where
  pixel_format : PixelFormat
  bytes_per_pixel : Nat
deriving DecidableEq

def initPixelState : PixelState := ⟨.ARGB8888, 0⟩

/-- src/main.rs lines 162-175: once per redraw, if `bytes_per_pixel` is
still 0, drain the pixel-format channel and cache the last declared format
and its bytes-per-pixel. -/
def setupPixelFormatState (st : PixelState) (declared : List PixelFormat) :
    PixelState :=
  if st.bytes_per_pixel = 0 then
    declared.foldl (fun _ pf => ⟨pf, bppOfFormat pf⟩) st
  else st

/-! ## Claim C10 -/

/-- Claim C10, counterexample to the original statement: when the engine
never declares a pixel format the fallbacks are NOT one consistent pair.
The state keeps the default format ARGB8888 but its cached
`bytes_per_pixel` stays 0, while `set_up_pixel_format` falls back to 2 —
none of which matches ARGB8888's matching value 4. -/
theorem c10_counterexample :
    (setupPixelFormatState initPixelState []).bytes_per_pixel
        ≠ bppOfFormat (setupPixelFormatState initPixelState []).pixel_format ∧
    set_up_pixel_format []
        ≠ bppOfFormat emulatorPixelFormatDefault := by
  decide

/-- Claim C10, amended: the core does tolerate the engine never declaring a
pixel format — nothing fails — but the fallback values are inconsistent
rather than one documented pair: the pixel format stays at its default
ARGB8888 while the cached `bytes_per_pixel` stays 0 (the uninitialised
marker), `set_up_pixel_format` falls back to 2 (the RGB565/ARGB1555 value),
and the `BYTES_PER_PIXEL` static starts at 4. -/
theorem c10_inconsistent_fallbacks :
    (setupPixelFormatState initPixelState []).pixel_format
        = emulatorPixelFormatDefault ∧
    (setupPixelFormatState initPixelState []).bytes_per_pixel = 0 ∧
    set_up_pixel_format [] = 2 ∧
    bppOfFormat emulatorPixelFormatDefault = 4 ∧
    BYTES_PER_PIXEL_initial = 4 :=
  ⟨rfl, rfl, rfl, rfl, rfl⟩

/-!
## VRR detection — src/video.rs lines 35-65

`is_vrr_ready` iterates over the monitor video modes; each mode's refresh
rate is `refresh_rate_millihertz() as f64 / 1000.0`.  The `f64` arithmetic
is modelled over `ℚ`; every rate used in the claims is an integer number of
hertz, where `ℚ` and `f64` arithmetic coincide exactly (division by 1000,
`%`, `round` and comparisons are all exact on these values).  `f64::MAX`
and `f64::MIN` initialise the running minimum and maximum;
`f64::MAX = (2^53 - 1) * 2^971`.  `x % 5.0` for the nonnegative `x` here is
`x - 5 * floor(x / 5)`, and `f64::round` on nonnegative values is
`round` (half away from zero = half up). -/

def f64MAX : ℚ := ((2 ^ 53 - 1 : Nat) : ℚ) * (2 : ℚ) ^ (971 : Nat)

def f64MIN : ℚ := -f64MAX

def fmod5 (x : ℚ) : ℚ := x - 5 * (⌊x / 5⌋ : ℚ)

structure VrrScan where
  min_refresh_rate : ℚ
  max_refresh_rate : ℚ
  count_not_divisible_by_five : ℤ

/-- The loop body of src/video.rs lines 40-53 for one video mode. -/
def vrrScanStep (s : VrrScan) (millihertz : Nat) : VrrScan :=
  let refresh_rate : ℚ := (millihertz : ℚ) / 1000
  let s1 := if refresh_rate < s.min_refresh_rate then
      { s with min_refresh_rate := refresh_rate } else s
  let s2 := if s1.max_refresh_rate < refresh_rate then
      { s1 with max_refresh_rate := refresh_rate } else s1
  if fmod5 refresh_rate ≠ 0 ∧ round refresh_rate ≠ (144 : ℤ) then
    { s2 with count_not_divisible_by_five :=
        s2.count_not_divisible_by_five + 1 }
  else s2

/-- src/video.rs lines 35-65: scan all modes, then require more than one
counted mode and the content frame rate within [min, max]. -/
def is_vrr_ready (modesMillihertz : List Nat) (original_framerate : ℚ) :
    Bool :=
  let scan := modesMillihertz.foldl vrrScanStep
    ⟨f64MAX, f64MIN, 0⟩
  decide (1 < scan.count_not_divisible_by_five ∧
    scan.min_refresh_rate ≤ original_framerate ∧
    original_framerate ≤ scan.max_refresh_rate)

theorem vrr_step_48 : vrrScanStep ⟨f64MAX, f64MIN, 0⟩ 48000 = ⟨48, 48, 1⟩ := by
  rw [vrrScanStep]
  norm_num [fmod5, f64MAX, f64MIN, round_eq]

theorem vrr_step_60 : vrrScanStep ⟨48, 48, 1⟩ 60000 = ⟨48, 60, 1⟩ := by
  rw [vrrScanStep]
  norm_num [fmod5, round_eq]

theorem vrr_step_75 : vrrScanStep ⟨48, 60, 1⟩ 75000 = ⟨48, 75, 1⟩ := by
  rw [vrrScanStep]
  norm_num [fmod5, round_eq]

theorem vrr_step_90 : vrrScanStep ⟨48, 75, 1⟩ 90000 = ⟨48, 90, 1⟩ := by
  rw [vrrScanStep]
  norm_num [fmod5, round_eq]

theorem vrr_step_120 : vrrScanStep ⟨48, 90, 1⟩ 120000 = ⟨48, 120, 1⟩ := by
  rw [vrrScanStep]
  norm_num [fmod5, round_eq]

theorem vrr_step_144 : vrrScanStep ⟨48, 120, 1⟩ 144000 = ⟨48, 144, 1⟩ := by
  rw [vrrScanStep]
  norm_num [fmod5, round_eq]

theorem vrr_step_only60 : vrrScanStep ⟨f64MAX, f64MIN, 0⟩ 60000 = ⟨60, 60, 0⟩ := by
  rw [vrrScanStep]
  norm_num [fmod5, f64MAX, f64MIN, round_eq]

theorem vrr_step_72 : vrrScanStep ⟨48, 48, 1⟩ 72000 = ⟨48, 72, 2⟩ := by
  rw [vrrScanStep]
  norm_num [fmod5, round_eq]

theorem vrr_step_90b : vrrScanStep ⟨48, 72, 2⟩ 90000 = ⟨48, 90, 2⟩ := by
  rw [vrrScanStep]
  norm_num [fmod5, round_eq]

theorem vrr_step_144b : vrrScanStep ⟨48, 90, 2⟩ 144000 = ⟨48, 144, 2⟩ := by
  rw [vrrScanStep]
  norm_num [fmod5, round_eq]

/-! ## Claim C6 -/

/-- Claim C6, counterexample to the original statement: for the mode list
{48, 60, 75, 90, 120, 144} Hz with content rate 59.94, the code counts only
ONE mode as "not divisible by 5" — the loop explicitly excludes any rate
that rounds to 144 — so `count_not_divisible_by_five = 1`, the `> 1` test
fails, and `is_vrr_ready` evaluates to `false`, not `true` as claimed. -/
theorem c6_counterexample :
    is_vrr_ready [48000, 60000, 75000, 90000, 120000, 144000] (5994 / 100)
      = false := by
  simp only [is_vrr_ready, List.foldl_cons, List.foldl_nil, vrr_step_48,
    vrr_step_60, vrr_step_75, vrr_step_90, vrr_step_120, vrr_step_144]
  rw [decide_eq_false_iff_not]
  norm_num

/-- Claim C6, amended: `is_vrr_ready` evaluates to `false` for the mode list
{48, 60, 75, 90, 120, 144} Hz with content rate 59.94, because modes that
round to 144 Hz are excluded from the non-multiple-of-5 count, leaving a
count of one (48 Hz only); it evaluates to `true` when at least two modes
are neither multiples of 5 nor round to 144 and the content rate lies
within [min, max] of the modes (for example {48, 72, 90, 144} Hz with
59.94); and it evaluates to `false` for a mode list of {60} Hz alone. -/
theorem c6_vrr_detection :
    is_vrr_ready [48000, 60000, 75000, 90000, 120000, 144000] (5994 / 100)
        = false ∧
    is_vrr_ready [48000, 72000, 90000, 144000] (5994 / 100) = true ∧
    is_vrr_ready [60000] (5994 / 100) = false := by
  refine ⟨?_, ?_, ?_⟩
  · simp only [is_vrr_ready, List.foldl_cons, List.foldl_nil, vrr_step_48,
      vrr_step_60, vrr_step_75, vrr_step_90, vrr_step_120, vrr_step_144]
    rw [decide_eq_false_iff_not]
    norm_num
  · simp only [is_vrr_ready, List.foldl_cons, List.foldl_nil, vrr_step_48,
      vrr_step_72, vrr_step_90b, vrr_step_144b]
    rw [decide_eq_true_eq]
    norm_num
  · simp only [is_vrr_ready, List.foldl_cons, List.foldl_nil,
      vrr_step_only60]
    rw [decide_eq_false_iff_not]
    norm_num

end QuantoBasta
